import Mathlib

/-!
Verification of the orchestration layer of the `loom` concurrency model
checker (`src/model.rs`, `src/lib.rs`): the `Builder` configuration, its
environment-variable driven construction (`Builder::new`), the exploration
driver loop (`Builder::check`), the top-level `model` entry point and the
`checkpoint` persistence helpers.

The exploration engine itself (`rt::Execution`, `rt::Scheduler`, `rt::Path`)
is not part of the given sources; `check` only calls it through
`Execution::new`, field assignments, `Scheduler::run` and `Execution::step`.
We therefore embed the driver over an abstract runtime interface `RT` whose
state type `σ` and trail type `τ` are parameters, and record every
observable action of the driver (checkpoint loads/stores, closure runs,
printed reports) in an explicit event trace.  Wall-clock readings
(`Instant::now` / `start.elapsed()`) are modelled as an explicit function
from the iteration index to the elapsed duration.  Rust panics are modelled
as `Except.error` / dedicated outcome constructors.
-/

namespace Loom

/-- The process environment: a partial map from variable names to values,
modelling `std::env::var` (`none` = unset). -/
def Env : Type := String → Option String

/-- Model of Rust `str::parse::<u64>` as used by `Builder::new`: an optional
leading `+` sign followed by at least one ASCII digit parses to the denoted
number; anything else fails.  (Rust additionally rejects values exceeding
the machine word, which no claim here depends on.) -/
def parseNat (s : String) : Option Nat :=
  let cs : List Char :=
    match s.data with
    | '+' :: rest => rest
    | l => l
  if cs.isEmpty then none
  else if cs.all Char.isDigit then
    some (cs.foldl (fun n c => n * 10 + (c.toNat - 48)) 0)
  else none

/-- `DEFAULT_MAX_THREADS` from `src/model.rs`. -/
def DEFAULT_MAX_THREADS : Nat := 4

/-- `DEFAULT_MAX_MEMORY = 4096 << 14` from `src/model.rs`. -/
def DEFAULT_MAX_MEMORY : Nat := 4096 * 2 ^ 14

/-- `DEFAULT_MAX_BRANCHES` from `src/model.rs`. -/
def DEFAULT_MAX_BRANCHES : Nat := 1000

/-- The `Builder` configuration struct from `src/model.rs`.  Durations are
measured in whole seconds (the only granularity `Builder::new` produces via
`Duration::from_secs`). -/
structure Builder where
  max_threads : Nat
  max_memory : Nat
  max_branches : Nat
  max_permutations : Option Nat
  max_duration : Option Nat
  preemption_bound : Option Nat
  checkpoint_file : Option String
  checkpoint_interval : Nat
  log : Bool
deriving Repr, DecidableEq

/-- One `env::var(key).map(|v| v.parse().ok().expect(..)).unwrap_or(dflt)`
step of `Builder::new`: unset yields the default, a set value must parse or
the construction panics (modelled as `Except.error`). -/
def envNat (env : Env) (key : String) (dflt : Nat) : Except String Nat :=
  match env key with
  | some v =>
    match parseNat v with
    | some n => .ok n
    | none => .error ("invalid value for `" ++ key ++ "`")
  | none => .ok dflt

/-- One `env::var(key).map(|v| v.parse().ok().expect(..)).ok()` step of
`Builder::new`: unset yields `none`, a set value must parse or the
construction panics. -/
def envNatOpt (env : Env) (key : String) : Except String (Option Nat) :=
  match env key with
  | some v =>
    match parseNat v with
    | some n => .ok (some n)
    | none => .error ("invalid value for `" ++ key ++ "`")
  | none => .ok none

/-- `Builder::new` from `src/model.rs`, reading the five `LOOM_*` override
variables in source order and filling the remaining fields with constants.
A malformed override value makes the whole construction fail (Rust:
`expect` panics). -/
def Builder.new (env : Env) : Except String Builder :=
  match envNat env "LOOM_CHECKPOINT_INTERVAL" 20000 with
  | .error e => .error e
  | .ok checkpoint_interval =>
  match envNat env "LOOM_MAX_BRANCHES" DEFAULT_MAX_BRANCHES with
  | .error e => .error e
  | .ok max_branches =>
  match envNatOpt env "LOOM_MAX_DURATION" with
  | .error e => .error e
  | .ok max_duration =>
  match envNatOpt env "LOOM_MAX_PERMUTATIONS" with
  | .error e => .error e
  | .ok max_permutations =>
  match envNatOpt env "LOOM_MAX_PREEMPTIONS" with
  | .error e => .error e
  | .ok preemption_bound =>
    .ok
      { max_threads := DEFAULT_MAX_THREADS
        max_memory := DEFAULT_MAX_MEMORY
        max_branches := max_branches
        max_permutations := max_permutations
        max_duration := max_duration
        preemption_bound := preemption_bound
        checkpoint_file := none
        checkpoint_interval := checkpoint_interval
        log := (env "LOOM_LOG").isSome }

/-- Abstract interface to the `rt` exploration engine, exactly the
operations `Builder::check` uses: `Execution::new`, assignment to
`execution.path` and `execution.log`, reading `execution.path`,
`Scheduler::run` (whose `Except.error` models a panic of the tested
closure propagating out of the run) and `Execution::step`.  `σ` is the
combined scheduler/execution state, `τ` the `rt::Path` decision-trail
type.  Every operation is a pure function: the engine is deterministic by
the spec's determinism requirement. -/
structure RT (σ τ : Type) where
  new_execution : Nat → Nat → Nat → Option Nat → σ
  set_path : σ → τ → σ
  set_log : σ → Bool → σ
  get_path : σ → τ
  run : σ → Except String σ
  step : σ → Option σ

/-- Abstract checkpoint file system as seen from `Builder::check`:
`path.exists()`, `checkpoint::load_execution_path` and
`checkpoint::store_execution_path` (the latter two panic on failure,
modelled as `Except.error`). -/
structure FS (τ : Type) where
  fileExists : String → Bool
  load : String → Except String τ
  store : τ → String → Except String Unit

/-- Observable actions of `Builder::check`, in program order. -/
inductive Event (τ : Type) where
  /-- `execution.path = checkpoint::load_execution_path(path)` before the loop. -/
  | load (path : String) (trail : τ)
  /-- the `================== Iteration i ==================` banner. -/
  | printIteration (i : Nat)
  /-- `checkpoint::store_execution_path(&execution.path, path)` at iteration `i`. -/
  | store (i : Nat) (path : String) (trail : τ)
  /-- one `scheduler.run(&mut execution, ..)` invocation of the closure. -/
  | closureRun
  /-- the `Completed in i iterations` report. -/
  | printCompleted (i : Nat)
deriving Repr, DecidableEq

/-- How `Builder::check` returned. -/
inductive Outcome where
  /-- `step` returned `None` at iteration `i`: full exhaustion. -/
  | completed (i : Nat)
  /-- returned at iteration `i` because `i >= max_permutations`. -/
  | maxPermutations (i : Nat)
  /-- returned at iteration `i` because `start.elapsed() >= max_duration`. -/
  | maxDuration (i : Nat)
  /-- Rust panic `attempt to calculate the remainder with a divisor of zero`
  from `i % self.checkpoint_interval` with `checkpoint_interval = 0`. -/
  | divByZero
  /-- a panic propagated out of `check` (closure panic or checkpoint I/O). -/
  | panic (msg : String)
deriving Repr, DecidableEq

/-- `true` exactly on `Event.closureRun`. -/
def isClosureRun {τ : Type} : Event τ → Bool
  | .closureRun => true
  | _ => false

/-- Number of times the tested closure was run in a trace. -/
def countRuns {τ : Type} (evs : List (Event τ)) : Nat :=
  evs.countP isClosureRun

/-- `true` on checkpoint `load` and `store` events. -/
def isCheckpointIO {τ : Type} : Event τ → Bool
  | .load _ _ => true
  | .store _ _ _ => true
  | _ => false

/-- The `max_duration` test of `Builder::check`: at iteration `i`, stop when
`start.elapsed() >= max_duration` (the elapsed reading is `elapsed i`). -/
def durationCheck (b : Builder) (elapsed : Nat → Nat) (i : Nat) : Option Outcome :=
  match b.max_duration with
  | some md => if md ≤ elapsed i then some (.maxDuration i) else none
  | none => none

/-- The two early-return bound tests inside the `i % checkpoint_interval == 0`
block of `Builder::check`, in source order: `i >= max_permutations`, then
`start.elapsed() >= max_duration`. -/
def boundsCheck (b : Builder) (elapsed : Nat → Nat) (i : Nat) : Option Outcome :=
  match b.max_permutations with
  | some mp => if mp ≤ i then some (.maxPermutations i) else durationCheck b elapsed i
  | none => durationCheck b elapsed i

/-- The store-and-check part of the checkpoint block once a checkpoint file
`p` is configured: `checkpoint::store_execution_path(&execution.path, path)`
(a failure panics), then the bound tests. -/
def cpStore {σ τ : Type} (b : Builder) (rt : RT σ τ) (fs : FS τ)
    (elapsed : Nat → Nat) (ex : σ) (i : Nat) (p : String) :
    List (Event τ) × Option Outcome :=
  match fs.store (rt.get_path ex) p with
  | .error e => ([.printIteration i], some (.panic e))
  | .ok _ =>
    ([.printIteration i, .store i p (rt.get_path ex)], boundsCheck b elapsed i)

/-- The `if i % self.checkpoint_interval == 0 { .. }` block of
`Builder::check` (for `checkpoint_interval ≠ 0`): print the iteration
banner, store the current trail when a checkpoint file is configured
(a store failure panics), then test the permutation and duration bounds.
Returns the events emitted and `some outcome` when the block returns out
of `check`. -/
def checkpointPhase {σ τ : Type} (b : Builder) (rt : RT σ τ) (fs : FS τ)
    (elapsed : Nat → Nat) (ex : σ) (i : Nat) : List (Event τ) × Option Outcome :=
  if i % b.checkpoint_interval = 0 then
    match b.checkpoint_file with
    | some p => cpStore b rt fs elapsed ex i p
    | none => ([.printIteration i], boundsCheck b elapsed i)
  else ([], none)

/-- The `execution.step()` part of one iteration, after a non-panicking
`scheduler.run` left the state `ex2`. -/
def stepPhase {σ τ : Type} (rt : RT σ τ) (i : Nat) (ex2 : σ) :
    List (Event τ) × (Outcome ⊕ σ) :=
  match rt.step ex2 with
  | some next => ([.closureRun], .inr next)
  | none => ([.closureRun, .printCompleted i], .inl (.completed i))

/-- The tail of one loop iteration of `Builder::check`: `scheduler.run`
(a closure panic propagates), then `execution.step()`; `Some(next)`
continues with `next`, `None` prints the completion report and returns. -/
def runStep {σ τ : Type} (rt : RT σ τ) (ex : σ) (i : Nat) :
    List (Event τ) × (Outcome ⊕ σ) :=
  match rt.run ex with
  | .error msg => ([.closureRun], .inl (.panic msg))
  | .ok ex2 => stepPhase rt i ex2

/-- One full iteration of the `loop` in `Builder::check`, at (1-based)
iteration index `i`.  Rust evaluates `i % self.checkpoint_interval` first;
with `checkpoint_interval = 0` this is an immediate remainder-by-zero
panic, before the closure is run. -/
def iterBody {σ τ : Type} (b : Builder) (rt : RT σ τ) (fs : FS τ)
    (elapsed : Nat → Nat) (ex : σ) (i : Nat) : List (Event τ) × (Outcome ⊕ σ) :=
  if b.checkpoint_interval = 0 then ([], .inl .divByZero)
  else
    match checkpointPhase b rt fs elapsed ex i with
    | (evs, some out) => (evs, .inl out)
    | (evs, none) =>
      match runStep rt ex i with
      | (evs2, r) => (evs ++ evs2, r)

/-- Prefix the result of the remaining loop iterations with the events of
the current one (fuel exhaustion passes through). -/
def checkLoopCont {τ : Type} (evs : List (Event τ))
    (rest : Option (List (Event τ) × Outcome)) : Option (List (Event τ) × Outcome) :=
  match rest with
  | some (evs2, out) => some (evs ++ evs2, out)
  | none => none

/-- The `loop` of `Builder::check`, fuel-bounded: `i` is the number of
iterations already performed (the source's counter before `i += 1`), `ex`
the current execution state.  `none` means the fuel ran out before the
loop returned (the loop may genuinely diverge). -/
def checkLoop {σ τ : Type} (b : Builder) (rt : RT σ τ) (fs : FS τ)
    (elapsed : Nat → Nat) : Nat → Nat → σ → Option (List (Event τ) × Outcome)
  | 0, _, _ => none
  | fuel + 1, i, ex =>
    match iterBody b rt fs elapsed ex (i + 1) with
    | (evs, .inl out) => some (evs, out)
    | (evs, .inr next) => checkLoopCont evs (checkLoop b rt fs elapsed fuel (i + 1) next)

/-- `Builder::check` from `src/model.rs`: construct the execution from the
configured bounds, load a checkpointed trail when a checkpoint file is
configured and exists (a load failure panics), set the log flag, then run
the loop from iteration counter `0`. -/
def Builder.check {σ τ : Type} (b : Builder) (rt : RT σ τ) (fs : FS τ)
    (elapsed : Nat → Nat) (fuel : Nat) : Option (List (Event τ) × Outcome) :=
  let ex0 := rt.new_execution b.max_threads b.max_memory b.max_branches b.preemption_bound
  match b.checkpoint_file with
  | some p =>
    if fs.fileExists p then
      match fs.load p with
      | .error e => some ([], .panic e)
      | .ok t =>
        checkLoopCont [Event.load p t]
          (checkLoop b rt fs elapsed fuel 0 (rt.set_log (rt.set_path ex0 t) b.log))
    else checkLoop b rt fs elapsed fuel 0 (rt.set_log ex0 b.log)
  | none => checkLoop b rt fs elapsed fuel 0 (rt.set_log ex0 b.log)

/-- The top-level `model` entry point from `src/model.rs`:
`Builder::new().check(f)` (a `Builder::new` panic propagates). -/
def model {σ τ : Type} (env : Env) (rt : RT σ τ) (fs : FS τ)
    (elapsed : Nat → Nat) (fuel : Nat) :
    Except String (Option (List (Event τ) × Outcome)) :=
  (Builder.new env).map (fun b => b.check rt fs elapsed fuel)

/-- The initial execution state of `check`: `Execution::new` with the
configured bounds, then `execution.log = self.log`. -/
def initState {σ τ : Type} (b : Builder) (rt : RT σ τ) : σ :=
  rt.set_log
    (rt.new_execution b.max_threads b.max_memory b.max_branches b.preemption_bound) b.log

/-- Like `initState`, but with a checkpointed trail `t` installed first. -/
def initStateLoaded {σ τ : Type} (b : Builder) (rt : RT σ τ) (t : τ) : σ :=
  rt.set_log
    (rt.set_path
      (rt.new_execution b.max_threads b.max_memory b.max_branches b.preemption_bound) t)
    b.log

/-- The `serde_json::from_str(&contents).unwrap()` step of
`checkpoint::load_execution_path`: a deserialization failure panics. -/
def parse_loaded {τ : Type} (parseTrail : String → Option τ) (contents : String) :
    Except String τ :=
  match parseTrail contents with
  | none => .error "failed to deserialize checkpoint file"
  | some t => .ok t

/-- `checkpoint::load_execution_path` (the `checkpoint`-feature version):
open and read the file (`readFile`, `none` on any open/read failure), then
deserialize (`parseTrail`); every failure is an `unwrap` panic, modelled as
`Except.error`. -/
def load_execution_path {τ : Type} (readFile : String → Option String)
    (parseTrail : String → Option τ) (fsPath : String) : Except String τ :=
  match readFile fsPath with
  | none => .error "failed to open or read checkpoint file"
  | some contents => parse_loaded parseTrail contents

/-- The `File::create` + `write_all` step of
`checkpoint::store_execution_path`: a create/write failure panics. -/
def write_serialized (writeFile : String → String → Option Unit) (fsPath s : String) :
    Except String Unit :=
  match writeFile fsPath s with
  | none => .error "failed to create or write checkpoint file"
  | some _ => .ok ()

/-- `checkpoint::store_execution_path` (the `checkpoint`-feature version):
serialize the trail, then create and write the file (`writeFile`, `none`
on any create/write failure); every failure is an `unwrap` panic, modelled
as `Except.error`. -/
def store_execution_path {τ : Type} (serializeTrail : τ → Option String)
    (writeFile : String → String → Option Unit) (path : τ) (fsPath : String) :
    Except String Unit :=
  match serializeTrail path with
  | none => .error "failed to serialize execution path"
  | some s => write_serialized writeFile fsPath s

/-! Concrete instances used to evaluate the model on closed inputs. -/

/-- The empty environment: no `LOOM_*` variable set. -/
def envEmpty : Env := fun _ => none

/-- An environment whose only setting is a malformed `LOOM_MAX_BRANCHES`. -/
def envBadBranches : Env :=
  fun k => if k = "LOOM_MAX_BRANCHES" then some "abc" else none

/-- The configuration `Builder::new` produces in the empty environment. -/
def defaultBuilder : Builder :=
  { max_threads := DEFAULT_MAX_THREADS
    max_memory := DEFAULT_MAX_MEMORY
    max_branches := DEFAULT_MAX_BRANCHES
    max_permutations := none
    max_duration := none
    preemption_bound := none
    checkpoint_file := none
    checkpoint_interval := 20000
    log := false }

/-- A runtime whose state counts remaining permutations: `step` yields a
successor until the counter hits `0`, and no run panics. -/
def rtCount (start : Nat) : RT Nat Nat where
  new_execution := fun _ _ _ _ => start
  set_path := fun ex _ => ex
  set_log := fun ex _ => ex
  get_path := fun ex => ex
  run := fun ex => .ok ex
  step := fun ex => if ex = 0 then none else some (ex - 1)

/-- A runtime whose search space never exhausts: `step` always succeeds. -/
def rtInf : RT Nat Nat where
  new_execution := fun _ _ _ _ => 0
  set_path := fun ex _ => ex
  set_log := fun ex _ => ex
  get_path := fun ex => ex
  run := fun ex => .ok ex
  step := fun ex => some ex

/-- A runtime whose tested closure panics on every run. -/
def rtPanic : RT Nat Nat where
  new_execution := fun _ _ _ _ => 0
  set_path := fun ex _ => ex
  set_log := fun ex _ => ex
  get_path := fun ex => ex
  run := fun _ => .error "closure panicked"
  step := fun ex => some ex

/-- A file system with no checkpoint file present. -/
def fsNone : FS Nat where
  fileExists := fun _ => false
  load := fun _ => .error "no such file"
  store := fun _ _ => .ok ()

/-- A file system where the checkpoint file exists, loads as trail `7`, and
stores always succeed. -/
def fsCp : FS Nat where
  fileExists := fun _ => true
  load := fun _ => .ok 7
  store := fun _ _ => .ok ()

/-- A clock that never advances. -/
def elapsedZero : Nat → Nat := fun _ => 0

/-- A clock advancing one second per iteration. -/
def elapsedId : Nat → Nat := fun i => i

/-- A clock advancing two seconds per iteration. -/
def elapsedDouble : Nat → Nat := fun i => 2 * i

/-- `max_permutations = 1` with checkpoint interval `3`. -/
def bPerm1 : Builder :=
  { defaultBuilder with max_permutations := some 1, checkpoint_interval := 3 }

/-- `max_duration = 5` seconds with checkpoint interval `1`. -/
def bDur5 : Builder :=
  { defaultBuilder with max_duration := some 5, checkpoint_interval := 1 }

/-- checkpoint interval `0` (reachable via `LOOM_CHECKPOINT_INTERVAL=0`). -/
def bZeroInterval : Builder :=
  { defaultBuilder with checkpoint_interval := 0 }

/-- a checkpoint file configured, with interval `2`. -/
def bCp : Builder :=
  { defaultBuilder with checkpoint_file := some "trail.json", checkpoint_interval := 2 }

/-- Trace of `defaultBuilder.check (rtCount 3) fsNone elapsedZero 10`. -/
def evsCount3 : List (Event Nat) :=
  [.closureRun, .closureRun, .closureRun, .closureRun, .printCompleted 4]

/-- Trace of `bPerm1.check rtInf fsNone elapsedZero 10`. -/
def evsPerm1 : List (Event Nat) :=
  [.closureRun, .closureRun, .printIteration 3]

/-- Trace of `bCp.check (rtCount 5) fsCp elapsedZero 10`. -/
def evsCp : List (Event Nat) :=
  [.load "trail.json" 7, .closureRun, .printIteration 2, .store 2 "trail.json" 4,
   .closureRun, .closureRun, .printIteration 4, .store 4 "trail.json" 2,
   .closureRun, .closureRun, .printIteration 6, .store 6 "trail.json" 0,
   .closureRun, .printCompleted 6]

/-- A file that can never be opened or read. -/
def readNone : String → Option String := fun _ => none

/-- A file whose contents read as `garbage`. -/
def readGarbage : String → Option String := fun _ => some "garbage"

/-- A deserializer that rejects every input. -/
def parseTrailNone : String → Option Nat := fun _ => none

/-- A serializer that fails on every trail. -/
def serializeNone : Nat → Option String := fun _ => none

/-- A serializer producing `s` for every trail. -/
def serializeSome : Nat → Option String := fun _ => some "s"

/-- A file that can never be created or written. -/
def writeNone : String → String → Option Unit := fun _ _ => none

/-! Helper lemmas about environment reading and `Builder::new`. -/

theorem envNat_none {env : Env} {key : String} {d : Nat} (h : env key = none) :
    envNat env key d = .ok d := by
  simp [envNat, h]

theorem envNat_some {env : Env} {key v : String} {d n : Nat}
    (h : env key = some v) (hp : parseNat v = some n) :
    envNat env key d = .ok n := by
  simp [envNat, h, hp]

theorem envNat_ok_cases {env : Env} {key : String} {d n : Nat}
    (h : envNat env key d = .ok n) :
    (env key = none ∧ n = d) ∨ ∃ v, env key = some v ∧ parseNat v = some n := by
  cases he : env key with
  | none =>
    simp only [envNat, he] at h
    exact .inl ⟨rfl, (Except.ok.inj h).symm⟩
  | some v =>
    cases hp : parseNat v with
    | none => simp only [envNat, he, hp] at h; cases h
    | some m =>
      simp only [envNat, he, hp] at h
      exact .inr ⟨v, rfl, by rw [hp, Except.ok.inj h]⟩

theorem envNatOpt_none {env : Env} {key : String} (h : env key = none) :
    envNatOpt env key = .ok none := by
  simp [envNatOpt, h]

theorem envNatOpt_some {env : Env} {key v : String} {n : Nat}
    (h : env key = some v) (hp : parseNat v = some n) :
    envNatOpt env key = .ok (some n) := by
  simp [envNatOpt, h, hp]

theorem envNatOpt_ok_cases {env : Env} {key : String} {o : Option Nat}
    (h : envNatOpt env key = .ok o) :
    (env key = none ∧ o = none) ∨ ∃ v n, env key = some v ∧ parseNat v = some n ∧ o = some n := by
  cases he : env key with
  | none =>
    simp only [envNatOpt, he] at h
    exact .inl ⟨rfl, (Except.ok.inj h).symm⟩
  | some v =>
    cases hp : parseNat v with
    | none => simp only [envNatOpt, he, hp] at h; cases h
    | some m =>
      simp only [envNatOpt, he, hp] at h
      exact .inr ⟨v, m, rfl, hp, (Except.ok.inj h).symm⟩

theorem new_ok_decomp {env : Env} {b : Builder} (h : Builder.new env = .ok b) :
    envNat env "LOOM_CHECKPOINT_INTERVAL" 20000 = .ok b.checkpoint_interval ∧
    envNat env "LOOM_MAX_BRANCHES" DEFAULT_MAX_BRANCHES = .ok b.max_branches ∧
    envNatOpt env "LOOM_MAX_DURATION" = .ok b.max_duration ∧
    envNatOpt env "LOOM_MAX_PERMUTATIONS" = .ok b.max_permutations ∧
    envNatOpt env "LOOM_MAX_PREEMPTIONS" = .ok b.preemption_bound ∧
    b.max_threads = DEFAULT_MAX_THREADS ∧
    b.max_memory = DEFAULT_MAX_MEMORY ∧
    b.checkpoint_file = none ∧
    b.log = (env "LOOM_LOG").isSome := by
  unfold Builder.new at h
  cases h1 : envNat env "LOOM_CHECKPOINT_INTERVAL" 20000 with
  | error e => rw [h1] at h; cases h
  | ok ci =>
  rw [h1] at h
  cases h2 : envNat env "LOOM_MAX_BRANCHES" DEFAULT_MAX_BRANCHES with
  | error e => rw [h2] at h; cases h
  | ok mb =>
  rw [h2] at h
  cases h3 : envNatOpt env "LOOM_MAX_DURATION" with
  | error e => rw [h3] at h; cases h
  | ok md =>
  rw [h3] at h
  cases h4 : envNatOpt env "LOOM_MAX_PERMUTATIONS" with
  | error e => rw [h4] at h; cases h
  | ok mp =>
  rw [h4] at h
  cases h5 : envNatOpt env "LOOM_MAX_PREEMPTIONS" with
  | error e => rw [h5] at h; cases h
  | ok pb =>
  rw [h5] at h
  have hb := Except.ok.inj h
  subst hb
  exact ⟨rfl, rfl, rfl, rfl, rfl, rfl, rfl, rfl, rfl⟩

theorem new_error_of_envNat_error {env : Env} {key : String}
    (hkey : key = "LOOM_CHECKPOINT_INTERVAL" ∨ key = "LOOM_MAX_BRANCHES" ∨
      key = "LOOM_MAX_DURATION" ∨ key = "LOOM_MAX_PERMUTATIONS" ∨
      key = "LOOM_MAX_PREEMPTIONS")
    {v : String} (hv : env key = some v) (hbad : parseNat v = none) :
    ∀ b, Builder.new env ≠ .ok b := by
  intro b hok
  have hd := new_ok_decomp hok
  rcases hkey with hk | hk | hk | hk | hk
  · subst hk
    rcases envNat_ok_cases hd.1 with ⟨hn, _⟩ | ⟨w, hw, hp⟩
    · rw [hv] at hn; cases hn
    · rw [hv] at hw
      rw [Option.some.inj hw] at hbad
      rw [hbad] at hp; cases hp
  · subst hk
    rcases envNat_ok_cases hd.2.1 with ⟨hn, _⟩ | ⟨w, hw, hp⟩
    · rw [hv] at hn; cases hn
    · rw [hv] at hw
      rw [Option.some.inj hw] at hbad
      rw [hbad] at hp; cases hp
  · subst hk
    rcases envNatOpt_ok_cases hd.2.2.1 with ⟨hn, _⟩ | ⟨w, m, hw, hp, _⟩
    · rw [hv] at hn; cases hn
    · rw [hv] at hw
      rw [Option.some.inj hw] at hbad
      rw [hbad] at hp; cases hp
  · subst hk
    rcases envNatOpt_ok_cases hd.2.2.2.1 with ⟨hn, _⟩ | ⟨w, m, hw, hp, _⟩
    · rw [hv] at hn; cases hn
    · rw [hv] at hw
      rw [Option.some.inj hw] at hbad
      rw [hbad] at hp; cases hp
  · subst hk
    rcases envNatOpt_ok_cases hd.2.2.2.2.1 with ⟨hn, _⟩ | ⟨w, m, hw, hp, _⟩
    · rw [hv] at hn; cases hn
    · rw [hv] at hw
      rw [Option.some.inj hw] at hbad
      rw [hbad] at hp; cases hp

/-! Helper lemmas about single loop iterations of `Builder::check`. -/

section LoopLemmas

variable {σ τ : Type} {b : Builder} {rt : RT σ τ} {fs : FS τ} {elapsed : Nat → Nat}

theorem countRuns_nil : countRuns ([] : List (Event τ)) = 0 := rfl

theorem countRuns_append (l₁ l₂ : List (Event τ)) :
    countRuns (l₁ ++ l₂) = countRuns l₁ + countRuns l₂ :=
  List.countP_append _ _ _

theorem countRuns_cons (e : Event τ) (l : List (Event τ)) :
    countRuns (e :: l) = countRuns l + (if isClosureRun e then 1 else 0) :=
  List.countP_cons _ _ _

theorem durationCheck_some {i : Nat} {out : Outcome}
    (h : durationCheck b elapsed i = some out) :
    out = .maxDuration i ∧ ∃ D, b.max_duration = some D ∧ D ≤ elapsed i := by
  unfold durationCheck at h
  split at h
  next md hmd =>
    split at h
    next hdl => exact ⟨(Option.some.inj h).symm, md, hmd, hdl⟩
    next hdl => cases h
  next hmd => cases h

theorem boundsCheck_some {i : Nat} {out : Outcome}
    (h : boundsCheck b elapsed i = some out) :
    (out = .maxPermutations i ∧ ∃ N, b.max_permutations = some N ∧ N ≤ i) ∨
    (out = .maxDuration i ∧ ∃ D, b.max_duration = some D ∧ D ≤ elapsed i) := by
  unfold boundsCheck at h
  split at h
  next mp hmp =>
    split at h
    next hle => exact .inl ⟨(Option.some.inj h).symm, mp, hmp, hle⟩
    next hle => exact .inr (durationCheck_some h)
  next hmp => exact .inr (durationCheck_some h)

theorem boundsCheck_elapsed_irrel {i : Nat} (e₁ e₂ : Nat → Nat)
    (hd : b.max_duration = none) :
    boundsCheck b e₁ i = boundsCheck b e₂ i := by
  unfold boundsCheck durationCheck
  rw [hd]

theorem checkpointPhase_off {ex : σ} {i : Nat}
    (hmod : ¬ i % b.checkpoint_interval = 0) :
    checkpointPhase b rt fs elapsed ex i = ([], none) := by
  unfold checkpointPhase
  rw [if_neg hmod]

theorem checkpointPhase_on_none {ex : σ} {i : Nat}
    (hmod : i % b.checkpoint_interval = 0) (hcf : b.checkpoint_file = none) :
    checkpointPhase b rt fs elapsed ex i =
      ([.printIteration i], boundsCheck b elapsed i) := by
  unfold checkpointPhase
  rw [if_pos hmod, hcf]

theorem checkpointPhase_on_some {ex : σ} {i : Nat} {p : String}
    (hmod : i % b.checkpoint_interval = 0) (hcf : b.checkpoint_file = some p) :
    checkpointPhase b rt fs elapsed ex i = cpStore b rt fs elapsed ex i p := by
  unfold checkpointPhase
  rw [if_pos hmod, hcf]

theorem checkpointPhase_on_store_ok {ex : σ} {i : Nat} {p : String} {u : Unit}
    (hmod : i % b.checkpoint_interval = 0) (hcf : b.checkpoint_file = some p)
    (hst : fs.store (rt.get_path ex) p = .ok u) :
    checkpointPhase b rt fs elapsed ex i =
      ([.printIteration i, .store i p (rt.get_path ex)], boundsCheck b elapsed i) := by
  rw [checkpointPhase_on_some hmod hcf]
  unfold cpStore
  rw [hst]

theorem checkpointPhase_on_store_error {ex : σ} {i : Nat} {p e : String}
    (hmod : i % b.checkpoint_interval = 0) (hcf : b.checkpoint_file = some p)
    (hst : fs.store (rt.get_path ex) p = .error e) :
    checkpointPhase b rt fs elapsed ex i =
      ([.printIteration i], some (.panic e)) := by
  rw [checkpointPhase_on_some hmod hcf]
  unfold cpStore
  rw [hst]

theorem checkpointPhase_countRuns (ex : σ) (i : Nat) :
    countRuns (checkpointPhase b rt fs elapsed ex i).1 = 0 := by
  by_cases hmod : i % b.checkpoint_interval = 0
  · cases hcf : b.checkpoint_file with
    | some p =>
      cases hst : fs.store (rt.get_path ex) p with
      | error e =>
        rw [checkpointPhase_on_store_error hmod hcf hst]
        simp [countRuns, isClosureRun]
      | ok u =>
        rw [checkpointPhase_on_store_ok hmod hcf hst]
        simp [countRuns, isClosureRun]
    | none =>
      rw [checkpointPhase_on_none hmod hcf]
      simp [countRuns, isClosureRun]
  · rw [checkpointPhase_off hmod]
    exact countRuns_nil

theorem checkpointPhase_stop {ex : σ} {i : Nat} {out : Outcome}
    (h : (checkpointPhase b rt fs elapsed ex i).2 = some out) :
    i % b.checkpoint_interval = 0 ∧
    ((out = .maxPermutations i ∧ ∃ N, b.max_permutations = some N ∧ N ≤ i) ∨
     (out = .maxDuration i ∧ ∃ D, b.max_duration = some D ∧ D ≤ elapsed i) ∨
     (∃ p e, b.checkpoint_file = some p ∧ fs.store (rt.get_path ex) p = .error e ∧
       out = .panic e)) := by
  by_cases hmod : i % b.checkpoint_interval = 0
  · refine ⟨hmod, ?_⟩
    cases hcf : b.checkpoint_file with
    | some p =>
      cases hst : fs.store (rt.get_path ex) p with
      | error e =>
        rw [checkpointPhase_on_store_error hmod hcf hst] at h
        exact .inr (.inr ⟨p, e, rfl, hst, (Option.some.inj h).symm⟩)
      | ok u =>
        rw [checkpointPhase_on_store_ok hmod hcf hst] at h
        rcases boundsCheck_some h with hc | hc
        · exact .inl hc
        · exact .inr (.inl hc)
    | none =>
      rw [checkpointPhase_on_none hmod hcf] at h
      rcases boundsCheck_some h with hc | hc
      · exact .inl hc
      · exact .inr (.inl hc)
  · rw [checkpointPhase_off hmod] at h
    cases h

theorem runStep_run_error {ex : σ} {i : Nat} {msg : String}
    (hr : rt.run ex = .error msg) :
    runStep rt ex i = ([.closureRun], .inl (.panic msg)) := by
  unfold runStep
  rw [hr]

theorem runStep_run_ok {ex ex2 : σ} {i : Nat} (hr : rt.run ex = .ok ex2) :
    runStep rt ex i = stepPhase rt i ex2 := by
  unfold runStep
  rw [hr]

theorem runStep_step_some {ex ex2 next : σ} {i : Nat}
    (hr : rt.run ex = .ok ex2) (hs : rt.step ex2 = some next) :
    runStep rt ex i = ([.closureRun], .inr next) := by
  rw [runStep_run_ok hr]
  unfold stepPhase
  rw [hs]

theorem runStep_step_none {ex ex2 : σ} {i : Nat}
    (hr : rt.run ex = .ok ex2) (hs : rt.step ex2 = none) :
    runStep rt ex i = ([.closureRun, .printCompleted i], .inl (.completed i)) := by
  rw [runStep_run_ok hr]
  unfold stepPhase
  rw [hs]

theorem runStep_countRuns (ex : σ) (i : Nat) :
    countRuns (runStep rt ex i).1 = 1 := by
  cases hr : rt.run ex with
  | error msg =>
    rw [runStep_run_error hr]
    simp [countRuns, isClosureRun]
  | ok ex2 =>
    cases hs : rt.step ex2 with
    | some next =>
      rw [runStep_step_some hr hs]
      simp [countRuns, isClosureRun]
    | none =>
      rw [runStep_step_none hr hs]
      simp [countRuns, isClosureRun]

theorem runStep_inl {ex : σ} {i : Nat} {out : Outcome}
    (h : (runStep rt ex i).2 = .inl out) :
    (out = .completed i ∧ (runStep rt ex i).1 = [.closureRun, .printCompleted i]) ∨
    (∃ m, out = .panic m ∧ rt.run ex = .error m ∧ (runStep rt ex i).1 = [.closureRun]) := by
  cases hr : rt.run ex with
  | error msg =>
    rw [runStep_run_error hr] at h ⊢
    exact .inr ⟨msg, (Sum.inl.inj h).symm, rfl, rfl⟩
  | ok ex2 =>
    cases hs : rt.step ex2 with
    | some next =>
      rw [runStep_step_some hr hs] at h
      cases h
    | none =>
      rw [runStep_step_none hr hs] at h ⊢
      exact .inl ⟨(Sum.inl.inj h).symm, rfl⟩

theorem iterBody_zero_interval (hk : b.checkpoint_interval = 0) (ex : σ) (i : Nat) :
    iterBody b rt fs elapsed ex i = ([], .inl .divByZero) := by
  simp [iterBody, hk]

theorem iterBody_eq_continue {ex : σ} {i : Nat} (hk : b.checkpoint_interval ≠ 0)
    (hcp : (checkpointPhase b rt fs elapsed ex i).2 = none) :
    iterBody b rt fs elapsed ex i =
      ((checkpointPhase b rt fs elapsed ex i).1 ++ (runStep rt ex i).1,
       (runStep rt ex i).2) := by
  unfold iterBody
  rw [if_neg hk]
  cases hc : checkpointPhase b rt fs elapsed ex i with
  | mk evs1 stop =>
    cases stop with
    | some out => rw [hc] at hcp; cases hcp
    | none =>
      cases hrs : runStep rt ex i with
      | mk evs2 r2 => rfl

theorem iterBody_eq_stop {ex : σ} {i : Nat} {out : Outcome}
    (hk : b.checkpoint_interval ≠ 0)
    (hcp : (checkpointPhase b rt fs elapsed ex i).2 = some out) :
    iterBody b rt fs elapsed ex i =
      ((checkpointPhase b rt fs elapsed ex i).1, .inl out) := by
  unfold iterBody
  rw [if_neg hk]
  cases hc : checkpointPhase b rt fs elapsed ex i with
  | mk evs1 stop =>
    cases stop with
    | some out2 =>
      rw [hc] at hcp
      rw [Option.some.inj hcp]
    | none => rw [hc] at hcp; cases hcp

theorem iterBody_cases {ex : σ} {i : Nat} {evs : List (Event τ)} {r : Outcome ⊕ σ}
    (hk : b.checkpoint_interval ≠ 0)
    (h : iterBody b rt fs elapsed ex i = (evs, r)) :
    ((checkpointPhase b rt fs elapsed ex i).2 = none ∧
      evs = (checkpointPhase b rt fs elapsed ex i).1 ++ (runStep rt ex i).1 ∧
      r = (runStep rt ex i).2) ∨
    (∃ out, (checkpointPhase b rt fs elapsed ex i).2 = some out ∧
      evs = (checkpointPhase b rt fs elapsed ex i).1 ∧ r = .inl out) := by
  cases hcp : (checkpointPhase b rt fs elapsed ex i).2 with
  | some out =>
    rw [iterBody_eq_stop hk hcp] at h
    exact .inr ⟨out, rfl, (Prod.mk.inj h).1.symm, (Prod.mk.inj h).2.symm⟩
  | none =>
    rw [iterBody_eq_continue hk hcp] at h
    exact .inl ⟨rfl, (Prod.mk.inj h).1.symm, (Prod.mk.inj h).2.symm⟩

end LoopLemmas

/-! Helper lemmas about the whole loop of `Builder::check`. -/

section CheckLoopLemmas

variable {σ τ : Type} {b : Builder} {rt : RT σ τ} {fs : FS τ} {elapsed : Nat → Nat}

theorem checkLoopCont_some {evs1 evs : List (Event τ)}
    {rest : Option (List (Event τ) × Outcome)} {out : Outcome}
    (h : checkLoopCont evs1 rest = some (evs, out)) :
    ∃ evs2, rest = some (evs2, out) ∧ evs = evs1 ++ evs2 := by
  cases rest with
  | none => simp [checkLoopCont] at h
  | some pair =>
    cases pair with
    | mk evs2 out2 =>
      have he : checkLoopCont evs1 (some (evs2, out2)) = some (evs1 ++ evs2, out2) := rfl
      rw [he] at h
      have h1 := Option.some.inj h
      exact ⟨evs2, by rw [(Prod.mk.inj h1).2], (Prod.mk.inj h1).1.symm⟩

theorem checkLoop_succ_eq (fuel i : Nat) (ex : σ) :
    checkLoop b rt fs elapsed (fuel + 1) i ex =
      match iterBody b rt fs elapsed ex (i + 1) with
      | (evs, .inl out) => some (evs, out)
      | (evs, .inr next) => checkLoopCont evs (checkLoop b rt fs elapsed fuel (i + 1) next) :=
  rfl

theorem checkLoop_succ_inl {fuel i : Nat} {ex : σ} {evs1 : List (Event τ)} {out : Outcome}
    (hib : iterBody b rt fs elapsed ex (i + 1) = (evs1, .inl out)) :
    checkLoop b rt fs elapsed (fuel + 1) i ex = some (evs1, out) := by
  rw [checkLoop_succ_eq, hib]

theorem checkLoop_succ_inr {fuel i : Nat} {ex next : σ} {evs1 : List (Event τ)}
    (hib : iterBody b rt fs elapsed ex (i + 1) = (evs1, .inr next)) :
    checkLoop b rt fs elapsed (fuel + 1) i ex =
      checkLoopCont evs1 (checkLoop b rt fs elapsed fuel (i + 1) next) := by
  rw [checkLoop_succ_eq, hib]

theorem checkLoop_succ_inv {fuel i : Nat} {ex : σ} {evs : List (Event τ)} {out : Outcome}
    (h : checkLoop b rt fs elapsed (fuel + 1) i ex = some (evs, out)) :
    (iterBody b rt fs elapsed ex (i + 1) = (evs, .inl out)) ∨
    (∃ evs1 next evs2, iterBody b rt fs elapsed ex (i + 1) = (evs1, .inr next) ∧
      checkLoop b rt fs elapsed fuel (i + 1) next = some (evs2, out) ∧
      evs = evs1 ++ evs2) := by
  cases hib : iterBody b rt fs elapsed ex (i + 1) with
  | mk evs1 r =>
    cases r with
    | inl out1 =>
      rw [checkLoop_succ_inl hib] at h
      have h1 := Option.some.inj h
      exact .inl (by rw [(Prod.mk.inj h1).1, (Prod.mk.inj h1).2])
    | inr next =>
      rw [checkLoop_succ_inr hib] at h
      obtain ⟨evs2, hrest, hevs⟩ := checkLoopCont_some h
      exact .inr ⟨evs1, next, evs2, rfl, hrest, hevs⟩

theorem iterBody_inr_countRuns {ex next : σ} {i : Nat} {evs1 : List (Event τ)}
    (hib : iterBody b rt fs elapsed ex i = (evs1, .inr next)) :
    countRuns evs1 = 1 ∧ b.checkpoint_interval ≠ 0 := by
  by_cases hk : b.checkpoint_interval = 0
  · rw [iterBody_zero_interval hk] at hib
    cases (Prod.mk.inj hib).2
  · refine ⟨?_, hk⟩
    rcases iterBody_cases hk hib with ⟨hcp, hevs, hr⟩ | ⟨out, hcp, hevs, hr⟩
    · rw [hevs, countRuns_append, checkpointPhase_countRuns, runStep_countRuns]
    · cases hr

theorem checkLoop_completed {fuel : Nat} :
    ∀ {i : Nat} {ex : σ} {evs : List (Event τ)} {n : Nat},
    checkLoop b rt fs elapsed fuel i ex = some (evs, .completed n) →
    countRuns evs + i = n ∧ evs.getLast? = some (.printCompleted n) := by
  induction fuel with
  | zero => intro i ex evs n h; cases h
  | succ fuel ih =>
    intro i ex evs n h
    rcases checkLoop_succ_inv h with hib | ⟨evs1, next, evs2, hib, hrec, hevs⟩
    · by_cases hk : b.checkpoint_interval = 0
      · rw [iterBody_zero_interval hk] at hib
        cases Sum.inl.inj (Prod.mk.inj hib).2
      · rcases iterBody_cases hk hib with ⟨hcp, hevs, hr⟩ | ⟨out, hcp, hevs, hr⟩
        · rcases runStep_inl hr.symm with ⟨hout, hrs1⟩ | ⟨m, hout, _, _⟩
          · have hn : n = i + 1 := Outcome.completed.inj hout
            subst hn
            constructor
            · rw [hevs, countRuns_append, checkpointPhase_countRuns, hrs1]
              have h1 : countRuns ([Event.closureRun, Event.printCompleted (i + 1)] :
                  List (Event τ)) = 1 := rfl
              rw [h1]
              omega
            · rw [hevs, hrs1, List.getLast?_append_of_ne_nil _ (by simp)]
              rfl
          · cases hout
        · have hout : Outcome.completed n = out := Sum.inl.inj hr
          rcases (checkpointPhase_stop hcp).2 with ⟨ho, _⟩ | ⟨ho, _⟩ | ⟨p, e, _, _, ho⟩ <;>
            (rw [ho] at hout; cases hout)
    · obtain ⟨hc1, hk⟩ := iterBody_inr_countRuns hib
      obtain ⟨hcnt, hlast⟩ := ih hrec
      have hne : evs2 ≠ [] := by intro hnil; rw [hnil] at hlast; cases hlast
      constructor
      · rw [hevs, countRuns_append, hc1]
        omega
      · rw [hevs, List.getLast?_append_of_ne_nil _ hne, hlast]

theorem checkLoop_maxPerm {fuel : Nat} :
    ∀ {i : Nat} {ex : σ} {evs : List (Event τ)} {n : Nat},
    checkLoop b rt fs elapsed fuel i ex = some (evs, .maxPermutations n) →
    countRuns evs + i + 1 = n ∧ n % b.checkpoint_interval = 0 ∧
      ∃ N, b.max_permutations = some N ∧ N ≤ n := by
  induction fuel with
  | zero => intro i ex evs n h; cases h
  | succ fuel ih =>
    intro i ex evs n h
    rcases checkLoop_succ_inv h with hib | ⟨evs1, next, evs2, hib, hrec, hevs⟩
    · by_cases hk : b.checkpoint_interval = 0
      · rw [iterBody_zero_interval hk] at hib
        cases Sum.inl.inj (Prod.mk.inj hib).2
      · rcases iterBody_cases hk hib with ⟨hcp, hevs, hr⟩ | ⟨out, hcp, hevs, hr⟩
        · rcases runStep_inl hr.symm with ⟨hout, _⟩ | ⟨m, hout, _, _⟩ <;> cases hout
        · have hout : Outcome.maxPermutations n = out := Sum.inl.inj hr
          obtain ⟨hmod, hcases⟩ := checkpointPhase_stop hcp
          rcases hcases with ⟨ho, N, hN, hle⟩ | ⟨ho, _⟩ | ⟨p, e, _, _, ho⟩
          · rw [ho] at hout
            have hn : n = i + 1 := Outcome.maxPermutations.inj hout
            subst hn
            refine ⟨?_, hmod, N, hN, hle⟩
            rw [hevs, checkpointPhase_countRuns]
            omega
          · rw [ho] at hout; cases hout
          · rw [ho] at hout; cases hout
    · obtain ⟨hc1, hk⟩ := iterBody_inr_countRuns hib
      obtain ⟨hcnt, hmod, hN⟩ := ih hrec
      refine ⟨?_, hmod, hN⟩
      rw [hevs, countRuns_append, hc1]
      omega

theorem checkLoop_maxDur {fuel : Nat} :
    ∀ {i : Nat} {ex : σ} {evs : List (Event τ)} {n : Nat},
    checkLoop b rt fs elapsed fuel i ex = some (evs, .maxDuration n) →
    countRuns evs + i + 1 = n ∧ n % b.checkpoint_interval = 0 ∧
      ∃ D, b.max_duration = some D ∧ D ≤ elapsed n := by
  induction fuel with
  | zero => intro i ex evs n h; cases h
  | succ fuel ih =>
    intro i ex evs n h
    rcases checkLoop_succ_inv h with hib | ⟨evs1, next, evs2, hib, hrec, hevs⟩
    · by_cases hk : b.checkpoint_interval = 0
      · rw [iterBody_zero_interval hk] at hib
        cases Sum.inl.inj (Prod.mk.inj hib).2
      · rcases iterBody_cases hk hib with ⟨hcp, hevs, hr⟩ | ⟨out, hcp, hevs, hr⟩
        · rcases runStep_inl hr.symm with ⟨hout, _⟩ | ⟨m, hout, _, _⟩ <;> cases hout
        · have hout : Outcome.maxDuration n = out := Sum.inl.inj hr
          obtain ⟨hmod, hcases⟩ := checkpointPhase_stop hcp
          rcases hcases with ⟨ho, _⟩ | ⟨ho, D, hD, hle⟩ | ⟨p, e, _, _, ho⟩
          · rw [ho] at hout; cases hout
          · rw [ho] at hout
            have hn : n = i + 1 := Outcome.maxDuration.inj hout
            subst hn
            refine ⟨?_, hmod, D, hD, hle⟩
            rw [hevs, checkpointPhase_countRuns]
            omega
          · rw [ho] at hout; cases hout
    · obtain ⟨hc1, hk⟩ := iterBody_inr_countRuns hib
      obtain ⟨hcnt, hmod, hD⟩ := ih hrec
      refine ⟨?_, hmod, hD⟩
      rw [hevs, countRuns_append, hc1]
      omega

theorem checkLoop_panic_nocp (hcf : b.checkpoint_file = none) {fuel : Nat} :
    ∀ {i : Nat} {ex : σ} {evs : List (Event τ)} {m : String},
    checkLoop b rt fs elapsed fuel i ex = some (evs, .panic m) →
    evs.getLast? = some .closureRun ∧ ∃ ex2, rt.run ex2 = .error m := by
  induction fuel with
  | zero => intro i ex evs m h; cases h
  | succ fuel ih =>
    intro i ex evs m h
    rcases checkLoop_succ_inv h with hib | ⟨evs1, next, evs2, hib, hrec, hevs⟩
    · by_cases hk : b.checkpoint_interval = 0
      · rw [iterBody_zero_interval hk] at hib
        cases Sum.inl.inj (Prod.mk.inj hib).2
      · rcases iterBody_cases hk hib with ⟨hcp, hevs, hr⟩ | ⟨out, hcp, hevs, hr⟩
        · rcases runStep_inl hr.symm with ⟨hout, _⟩ | ⟨m2, hout, hrun, hrs1⟩
          · cases hout
          · have hm : m2 = m := (Outcome.panic.inj hout).symm
            subst hm
            refine ⟨?_, ex, hrun⟩
            rw [hevs, hrs1, List.getLast?_append_of_ne_nil _ (by simp)]
            rfl
        · have hout : Outcome.panic m = out := Sum.inl.inj hr
          obtain ⟨hmod, hcases⟩ := checkpointPhase_stop hcp
          rcases hcases with ⟨ho, _⟩ | ⟨ho, _⟩ | ⟨p, e, hp, _, ho⟩
          · rw [ho] at hout; cases hout
          · rw [ho] at hout; cases hout
          · rw [hp] at hcf; cases hcf
    · obtain ⟨hlast, hex⟩ := ih hrec
      have hne : evs2 ≠ [] := by intro hnil; rw [hnil] at hlast; cases hlast
      refine ⟨?_, hex⟩
      rw [hevs, List.getLast?_append_of_ne_nil _ hne, hlast]

theorem checkLoop_zero_interval (hk : b.checkpoint_interval = 0) {fuel i : Nat} {ex : σ}
    (hf : fuel ≠ 0) :
    checkLoop b rt fs elapsed fuel i ex = some ([], .divByZero) := by
  cases fuel with
  | zero => cases hf rfl
  | succ fuel => exact checkLoop_succ_inl (iterBody_zero_interval hk ex (i + 1))

theorem checkLoop_no_divByZero (hk : b.checkpoint_interval ≠ 0) {fuel : Nat} :
    ∀ {i : Nat} {ex : σ} {evs : List (Event τ)},
    checkLoop b rt fs elapsed fuel i ex ≠ some (evs, .divByZero) := by
  induction fuel with
  | zero => intro i ex evs h; cases h
  | succ fuel ih =>
    intro i ex evs h
    rcases checkLoop_succ_inv h with hib | ⟨evs1, next, evs2, hib, hrec, hevs⟩
    · rcases iterBody_cases hk hib with ⟨hcp, _, hr⟩ | ⟨out, hcp, _, hr⟩
      · rcases runStep_inl hr.symm with ⟨hout, _⟩ | ⟨m, hout, _, _⟩ <;> cases hout
      · have hout : Outcome.divByZero = out := Sum.inl.inj hr
        obtain ⟨_, hcases⟩ := checkpointPhase_stop hcp
        rcases hcases with ⟨ho, _⟩ | ⟨ho, _⟩ | ⟨p, e, _, _, ho⟩ <;> (rw [ho] at hout; cases hout)
    · exact ih hrec

theorem checkpointPhase_no_load {ex : σ} {i : Nat} {p : String} {t : τ} :
    Event.load p t ∉ (checkpointPhase b rt fs elapsed ex i).1 := by
  by_cases hmod : i % b.checkpoint_interval = 0
  · cases hcf : b.checkpoint_file with
    | some q =>
      cases hst : fs.store (rt.get_path ex) q with
      | error e => rw [checkpointPhase_on_store_error hmod hcf hst]; simp
      | ok u => rw [checkpointPhase_on_store_ok hmod hcf hst]; simp
    | none => rw [checkpointPhase_on_none hmod hcf]; simp
  · rw [checkpointPhase_off hmod]; simp

theorem runStep_no_load {ex : σ} {i : Nat} {p : String} {t : τ} :
    Event.load p t ∉ (runStep rt ex i).1 := by
  cases hr : rt.run ex with
  | error msg => rw [runStep_run_error hr]; simp
  | ok ex2 =>
    cases hs : rt.step ex2 with
    | some next => rw [runStep_step_some hr hs]; simp
    | none => rw [runStep_step_none hr hs]; simp

theorem checkpointPhase_store_mem {ex : σ} {i j : Nat} {q : String} {t : τ}
    (h : Event.store j q t ∈ (checkpointPhase b rt fs elapsed ex i).1) :
    b.checkpoint_file = some q ∧ j = i ∧ i % b.checkpoint_interval = 0 := by
  by_cases hmod : i % b.checkpoint_interval = 0
  · cases hcf : b.checkpoint_file with
    | some p =>
      cases hst : fs.store (rt.get_path ex) p with
      | error e => rw [checkpointPhase_on_store_error hmod hcf hst] at h; simp at h
      | ok u =>
        rw [checkpointPhase_on_store_ok hmod hcf hst] at h
        simp at h
        exact ⟨by rw [h.2.1], h.1, hmod⟩
    | none => rw [checkpointPhase_on_none hmod hcf] at h; simp at h
  · rw [checkpointPhase_off hmod] at h; simp at h

theorem runStep_no_store {ex : σ} {i j : Nat} {q : String} {t : τ} :
    Event.store j q t ∉ (runStep rt ex i).1 := by
  cases hr : rt.run ex with
  | error msg => rw [runStep_run_error hr]; simp
  | ok ex2 =>
    cases hs : rt.step ex2 with
    | some next => rw [runStep_step_some hr hs]; simp
    | none => rw [runStep_step_none hr hs]; simp

theorem iterBody_no_load {ex : σ} {i : Nat} {evs : List (Event τ)} {r : Outcome ⊕ σ}
    (hib : iterBody b rt fs elapsed ex i = (evs, r)) {p : String} {t : τ} :
    Event.load p t ∉ evs := by
  by_cases hk : b.checkpoint_interval = 0
  · rw [iterBody_zero_interval hk] at hib
    rw [← (Prod.mk.inj hib).1]
    simp
  · rcases iterBody_cases hk hib with ⟨_, hevs, _⟩ | ⟨out, _, hevs, _⟩
    · rw [hevs]
      intro hmem
      rcases List.mem_append.mp hmem with hm | hm
      · exact checkpointPhase_no_load hm
      · exact runStep_no_load hm
    · rw [hevs]
      exact checkpointPhase_no_load

theorem iterBody_store_mem {ex : σ} {i : Nat} {evs : List (Event τ)} {r : Outcome ⊕ σ}
    (hib : iterBody b rt fs elapsed ex i = (evs, r)) {j : Nat} {q : String} {t : τ}
    (hmem : Event.store j q t ∈ evs) :
    b.checkpoint_file = some q ∧ j = i ∧ i % b.checkpoint_interval = 0 := by
  by_cases hk : b.checkpoint_interval = 0
  · rw [iterBody_zero_interval hk] at hib
    rw [← (Prod.mk.inj hib).1] at hmem
    simp at hmem
  · rcases iterBody_cases hk hib with ⟨_, hevs, _⟩ | ⟨out, _, hevs, _⟩
    · rw [hevs] at hmem
      rcases List.mem_append.mp hmem with hm | hm
      · exact checkpointPhase_store_mem hm
      · exact absurd hm runStep_no_store
    · rw [hevs] at hmem
      exact checkpointPhase_store_mem hmem

theorem checkLoop_no_load {fuel : Nat} :
    ∀ {i : Nat} {ex : σ} {evs : List (Event τ)} {out : Outcome},
    checkLoop b rt fs elapsed fuel i ex = some (evs, out) →
    ∀ (p : String) (t : τ), Event.load p t ∉ evs := by
  induction fuel with
  | zero => intro i ex evs out h; cases h
  | succ fuel ih =>
    intro i ex evs out h p t
    rcases checkLoop_succ_inv h with hib | ⟨evs1, next, evs2, hib, hrec, hevs⟩
    · exact iterBody_no_load hib
    · rw [hevs]
      intro hmem
      rcases List.mem_append.mp hmem with hm | hm
      · exact iterBody_no_load hib hm
      · exact ih hrec p t hm

theorem checkLoop_store_mem {fuel : Nat} :
    ∀ {i : Nat} {ex : σ} {evs : List (Event τ)} {out : Outcome},
    checkLoop b rt fs elapsed fuel i ex = some (evs, out) →
    ∀ {j : Nat} {q : String} {t : τ}, Event.store j q t ∈ evs →
    b.checkpoint_file = some q ∧ j % b.checkpoint_interval = 0 ∧ i < j := by
  induction fuel with
  | zero => intro i ex evs out h; cases h
  | succ fuel ih =>
    intro i ex evs out h j q t hmem
    rcases checkLoop_succ_inv h with hib | ⟨evs1, next, evs2, hib, hrec, hevs⟩
    · obtain ⟨hq, hj, hmod⟩ := iterBody_store_mem hib hmem
      subst hj
      exact ⟨hq, hmod, Nat.lt_succ_self i⟩
    · rw [hevs] at hmem
      rcases List.mem_append.mp hmem with hm | hm
      · obtain ⟨hq, hj, hmod⟩ := iterBody_store_mem hib hm
        subst hj
        exact ⟨hq, hmod, Nat.lt_succ_self i⟩
      · obtain ⟨hq, hmod, hlt⟩ := ih hrec hm
        exact ⟨hq, hmod, Nat.lt_of_succ_lt hlt⟩

theorem iterBody_store_emitted {ex : σ} {i : Nat} {evs : List (Event τ)} {r : Outcome ⊕ σ}
    {p : String} (hk : b.checkpoint_interval ≠ 0) (hcf : b.checkpoint_file = some p)
    (hmod : i % b.checkpoint_interval = 0)
    (hib : iterBody b rt fs elapsed ex i = (evs, r)) :
    (∃ e, r = .inl (.panic e)) ∨ ∃ t, Event.store i p t ∈ evs := by
  cases hst : fs.store (rt.get_path ex) p with
  | error e =>
    have h2 : (checkpointPhase b rt fs elapsed ex i).2 = some (.panic e) := by
      rw [checkpointPhase_on_store_error hmod hcf hst]
    rw [iterBody_eq_stop hk h2] at hib
    exact .inl ⟨e, (Prod.mk.inj hib).2.symm⟩
  | ok u =>
    have hcp : checkpointPhase b rt fs elapsed ex i =
        ([.printIteration i, .store i p (rt.get_path ex)], boundsCheck b elapsed i) :=
      checkpointPhase_on_store_ok hmod hcf hst
    refine .inr ⟨rt.get_path ex, ?_⟩
    cases hcp2 : (checkpointPhase b rt fs elapsed ex i).2 with
    | some out2 =>
      rw [iterBody_eq_stop hk hcp2] at hib
      rw [← (Prod.mk.inj hib).1, hcp]
      simp
    | none =>
      rw [iterBody_eq_continue hk hcp2] at hib
      rw [← (Prod.mk.inj hib).1, hcp]
      exact List.mem_append_left _ (by simp)

theorem checkLoop_completed_stores {p : String} (hcf : b.checkpoint_file = some p)
    {fuel : Nat} :
    ∀ {i : Nat} {ex : σ} {evs : List (Event τ)} {n : Nat},
    checkLoop b rt fs elapsed fuel i ex = some (evs, .completed n) →
    ∀ j, i < j → j ≤ n → j % b.checkpoint_interval = 0 →
    ∃ t, Event.store j p t ∈ evs := by
  induction fuel with
  | zero => intro i ex evs n h; cases h
  | succ fuel ih =>
    intro i ex evs n h j hij hjn hmod
    rcases checkLoop_succ_inv h with hib | ⟨evs1, next, evs2, hib, hrec, hevs⟩
    · by_cases hk : b.checkpoint_interval = 0
      · rw [iterBody_zero_interval hk] at hib
        cases Sum.inl.inj (Prod.mk.inj hib).2
      · have hn : n = i + 1 := by
          rcases iterBody_cases hk hib with ⟨_, _, hr⟩ | ⟨out, hcp, _, hr⟩
          · rcases runStep_inl hr.symm with ⟨hout, _⟩ | ⟨m, hout, _, _⟩
            · exact Outcome.completed.inj hout
            · cases hout
          · have hout : Outcome.completed n = out := Sum.inl.inj hr
            rcases (checkpointPhase_stop hcp).2 with ⟨ho, _⟩ | ⟨ho, _⟩ | ⟨q, e, _, _, ho⟩ <;>
              (rw [ho] at hout; cases hout)
        have hj : j = i + 1 := by omega
        subst hj
        rcases iterBody_store_emitted hk hcf hmod hib with ⟨e, hre⟩ | ⟨t, hmem⟩
        · cases Sum.inl.inj hre
        · exact ⟨t, hmem⟩
    · obtain ⟨_, hk⟩ := iterBody_inr_countRuns hib
      by_cases hj1 : j = i + 1
      · subst hj1
        rcases iterBody_store_emitted hk hcf hmod hib with ⟨e, hre⟩ | ⟨t, hmem⟩
        · cases hre
        · exact ⟨t, by rw [hevs]; exact List.mem_append_left _ hmem⟩
      · have hij2 : i + 1 < j := by omega
        obtain ⟨t, hmem⟩ := ih hrec j hij2 hjn hmod
        exact ⟨t, by rw [hevs]; exact List.mem_append_right _ hmem⟩

theorem checkpointPhase_nocp_no_store (hcf : b.checkpoint_file = none) {ex : σ}
    {i j : Nat} {q : String} {t : τ} :
    Event.store j q t ∉ (checkpointPhase b rt fs elapsed ex i).1 := by
  intro hmem
  obtain ⟨hq, _, _⟩ := checkpointPhase_store_mem hmem
  rw [hcf] at hq
  cases hq

theorem checkpointPhase_elapsed_irrel (hd : b.max_duration = none)
    (e1 e2 : Nat → Nat) (ex : σ) (i : Nat) :
    checkpointPhase b rt fs e1 ex i = checkpointPhase b rt fs e2 ex i := by
  by_cases hmod : i % b.checkpoint_interval = 0
  · cases hcf : b.checkpoint_file with
    | some p =>
      rw [checkpointPhase_on_some hmod hcf, checkpointPhase_on_some hmod hcf]
      unfold cpStore
      cases hst : fs.store (rt.get_path ex) p with
      | error e => rfl
      | ok u => rw [boundsCheck_elapsed_irrel e1 e2 hd]
    | none =>
      rw [checkpointPhase_on_none hmod hcf, checkpointPhase_on_none hmod hcf,
        boundsCheck_elapsed_irrel e1 e2 hd]
  · rw [checkpointPhase_off hmod, checkpointPhase_off hmod]

theorem iterBody_elapsed_irrel (hd : b.max_duration = none)
    (e1 e2 : Nat → Nat) (ex : σ) (i : Nat) :
    iterBody b rt fs e1 ex i = iterBody b rt fs e2 ex i := by
  unfold iterBody
  by_cases hk : b.checkpoint_interval = 0
  · rw [if_pos hk, if_pos hk]
  · rw [if_neg hk, if_neg hk, checkpointPhase_elapsed_irrel hd e1 e2 ex i]

theorem checkLoop_elapsed_irrel (hd : b.max_duration = none) (e1 e2 : Nat → Nat) :
    ∀ (fuel i : Nat) (ex : σ), checkLoop b rt fs e1 fuel i ex = checkLoop b rt fs e2 fuel i ex := by
  intro fuel
  induction fuel with
  | zero => intro i ex; rfl
  | succ fuel ih =>
    intro i ex
    rw [checkLoop_succ_eq, checkLoop_succ_eq, iterBody_elapsed_irrel hd e1 e2 ex (i + 1)]
    cases iterBody b rt fs e2 ex (i + 1) with
    | mk evs r =>
      cases r with
      | inl out => rfl
      | inr next =>
        show checkLoopCont evs (checkLoop b rt fs e1 fuel (i + 1) next) =
          checkLoopCont evs (checkLoop b rt fs e2 fuel (i + 1) next)
        rw [ih (i + 1) next]

end CheckLoopLemmas

/-! Helper lemmas about `Builder::check` as a whole. -/

section CheckLemmas

variable {σ τ : Type} {b : Builder} {rt : RT σ τ} {fs : FS τ} {elapsed : Nat → Nat}

theorem check_eq_nocp {fuel : Nat} (hcf : b.checkpoint_file = none) :
    b.check rt fs elapsed fuel = checkLoop b rt fs elapsed fuel 0 (initState b rt) := by
  unfold Builder.check
  rw [hcf]
  rfl

theorem check_eq_noexists {fuel : Nat} {p : String} (hcf : b.checkpoint_file = some p)
    (hex : fs.fileExists p = false) :
    b.check rt fs elapsed fuel = checkLoop b rt fs elapsed fuel 0 (initState b rt) := by
  unfold Builder.check
  rw [hcf]
  simp only [hex, Bool.false_eq_true, if_false]
  rfl

theorem check_eq_load_error {fuel : Nat} {p e : String} (hcf : b.checkpoint_file = some p)
    (hex : fs.fileExists p = true) (hld : fs.load p = .error e) :
    b.check rt fs elapsed fuel = some ([], .panic e) := by
  unfold Builder.check
  rw [hcf]
  simp only [hex, if_true]
  rw [hld]

theorem check_eq_load_ok {fuel : Nat} {p : String} {t : τ} (hcf : b.checkpoint_file = some p)
    (hex : fs.fileExists p = true) (hld : fs.load p = .ok t) :
    b.check rt fs elapsed fuel =
      checkLoopCont [Event.load p t]
        (checkLoop b rt fs elapsed fuel 0 (initStateLoaded b rt t)) := by
  unfold Builder.check
  rw [hcf]
  simp only [hex, if_true]
  rw [hld]
  rfl

theorem check_inv {fuel : Nat} {evs : List (Event τ)} {out : Outcome}
    (h : b.check rt fs elapsed fuel = some (evs, out)) :
    (∃ p e, b.checkpoint_file = some p ∧ fs.fileExists p = true ∧ fs.load p = .error e ∧
      out = .panic e ∧ evs = []) ∨
    (∃ ex0 evs0, checkLoop b rt fs elapsed fuel 0 ex0 = some (evs0, out) ∧
      (evs = evs0 ∨ ∃ p t, b.checkpoint_file = some p ∧ evs = Event.load p t :: evs0)) := by
  cases hcf : b.checkpoint_file with
  | none =>
    rw [check_eq_nocp hcf] at h
    exact .inr ⟨initState b rt, evs, h, .inl rfl⟩
  | some p =>
    cases hex : fs.fileExists p with
    | false =>
      rw [check_eq_noexists hcf hex] at h
      exact .inr ⟨initState b rt, evs, h, .inl rfl⟩
    | true =>
      cases hld : fs.load p with
      | error e =>
        rw [check_eq_load_error hcf hex hld] at h
        have h1 := Option.some.inj h
        exact .inl ⟨p, e, rfl, hex, hld, (Prod.mk.inj h1).2.symm, (Prod.mk.inj h1).1.symm⟩
      | ok t =>
        rw [check_eq_load_ok hcf hex hld] at h
        obtain ⟨evs2, hrest, hevs⟩ := checkLoopCont_some h
        exact .inr ⟨initStateLoaded b rt t, evs2, hrest,
          .inr ⟨p, t, rfl, by rw [hevs, List.singleton_append]⟩⟩

theorem countRuns_load_cons {p : String} {t : τ} (l : List (Event τ)) :
    countRuns (Event.load p t :: l) = countRuns l := by
  simp [countRuns, List.countP_cons, isClosureRun]

end CheckLemmas

/-! The claim theorems. -/

/-- C2: `Builder::new` returns a configuration with `max_threads = 4`,
`max_memory` the large default constant, `max_branches = 1000` unless
`LOOM_MAX_BRANCHES` is set, `checkpoint_interval = 20000` unless
`LOOM_CHECKPOINT_INTERVAL` is set, `checkpoint_file = None`,
`max_permutations` / `max_duration` / `preemption_bound` taken from their
environment overrides (`None` when absent), and `log` on exactly when
`LOOM_LOG` is present. -/
theorem new_defaults (env : Env) (b : Builder) (h : Builder.new env = .ok b) :
    b.max_threads = 4 ∧
    b.max_memory = 4096 * 2 ^ 14 ∧
    b.checkpoint_file = none ∧
    (env "LOOM_MAX_BRANCHES" = none → b.max_branches = 1000) ∧
    (∀ v n, env "LOOM_MAX_BRANCHES" = some v → parseNat v = some n →
      b.max_branches = n) ∧
    (env "LOOM_CHECKPOINT_INTERVAL" = none → b.checkpoint_interval = 20000) ∧
    (∀ v n, env "LOOM_CHECKPOINT_INTERVAL" = some v → parseNat v = some n →
      b.checkpoint_interval = n) ∧
    (env "LOOM_MAX_PERMUTATIONS" = none → b.max_permutations = none) ∧
    (∀ v n, env "LOOM_MAX_PERMUTATIONS" = some v → parseNat v = some n →
      b.max_permutations = some n) ∧
    (env "LOOM_MAX_DURATION" = none → b.max_duration = none) ∧
    (∀ v n, env "LOOM_MAX_DURATION" = some v → parseNat v = some n →
      b.max_duration = some n) ∧
    (env "LOOM_MAX_PREEMPTIONS" = none → b.preemption_bound = none) ∧
    (∀ v n, env "LOOM_MAX_PREEMPTIONS" = some v → parseNat v = some n →
      b.preemption_bound = some n) ∧
    b.log = (env "LOOM_LOG").isSome := by
  obtain ⟨h1, h2, h3, h4, h5, ht, hm, hcf, hlog⟩ := new_ok_decomp h
  refine ⟨ht, hm, hcf, ?_, ?_, ?_, ?_, ?_, ?_, ?_, ?_, ?_, ?_, hlog⟩
  · intro he
    exact (Except.ok.inj ((envNat_none he).symm.trans h2)).symm
  · intro v n hv hp
    exact (Except.ok.inj ((envNat_some hv hp).symm.trans h2)).symm
  · intro he
    exact (Except.ok.inj ((envNat_none he).symm.trans h1)).symm
  · intro v n hv hp
    exact (Except.ok.inj ((envNat_some hv hp).symm.trans h1)).symm
  · intro he
    exact (Except.ok.inj ((envNatOpt_none he).symm.trans h4)).symm
  · intro v n hv hp
    exact (Except.ok.inj ((envNatOpt_some hv hp).symm.trans h4)).symm
  · intro he
    exact (Except.ok.inj ((envNatOpt_none he).symm.trans h3)).symm
  · intro v n hv hp
    exact (Except.ok.inj ((envNatOpt_some hv hp).symm.trans h3)).symm
  · intro he
    exact (Except.ok.inj ((envNatOpt_none he).symm.trans h5)).symm
  · intro v n hv hp
    exact (Except.ok.inj ((envNatOpt_some hv hp).symm.trans h5)).symm

/-- Witness for C2: evaluated in the empty environment, `Builder::new`
succeeds with exactly the default configuration. -/
theorem new_defaults_witness :
    defaultBuilder.max_threads = 4 ∧
    defaultBuilder.max_memory = 4096 * 2 ^ 14 ∧
    defaultBuilder.checkpoint_file = none ∧
    (envEmpty "LOOM_MAX_BRANCHES" = none → defaultBuilder.max_branches = 1000) ∧
    (∀ v n, envEmpty "LOOM_MAX_BRANCHES" = some v → parseNat v = some n →
      defaultBuilder.max_branches = n) ∧
    (envEmpty "LOOM_CHECKPOINT_INTERVAL" = none → defaultBuilder.checkpoint_interval = 20000) ∧
    (∀ v n, envEmpty "LOOM_CHECKPOINT_INTERVAL" = some v → parseNat v = some n →
      defaultBuilder.checkpoint_interval = n) ∧
    (envEmpty "LOOM_MAX_PERMUTATIONS" = none → defaultBuilder.max_permutations = none) ∧
    (∀ v n, envEmpty "LOOM_MAX_PERMUTATIONS" = some v → parseNat v = some n →
      defaultBuilder.max_permutations = some n) ∧
    (envEmpty "LOOM_MAX_DURATION" = none → defaultBuilder.max_duration = none) ∧
    (∀ v n, envEmpty "LOOM_MAX_DURATION" = some v → parseNat v = some n →
      defaultBuilder.max_duration = some n) ∧
    (envEmpty "LOOM_MAX_PREEMPTIONS" = none → defaultBuilder.preemption_bound = none) ∧
    (∀ v n, envEmpty "LOOM_MAX_PREEMPTIONS" = some v → parseNat v = some n →
      defaultBuilder.preemption_bound = some n) ∧
    defaultBuilder.log = (envEmpty "LOOM_LOG").isSome :=
  new_defaults envEmpty defaultBuilder rfl

/-- C5: a malformed (non-integer) value of any of the five environment
overrides makes `Builder::new` panic during configuration construction. -/
theorem new_malformed_override_fails (env : Env) (key v : String)
    (hkey : key = "LOOM_CHECKPOINT_INTERVAL" ∨ key = "LOOM_MAX_BRANCHES" ∨
      key = "LOOM_MAX_DURATION" ∨ key = "LOOM_MAX_PERMUTATIONS" ∨
      key = "LOOM_MAX_PREEMPTIONS")
    (hv : env key = some v) (hbad : parseNat v = none) :
    ∃ e, Builder.new env = .error e := by
  cases hne : Builder.new env with
  | error e => exact ⟨e, rfl⟩
  | ok b => exact absurd hne (new_error_of_envNat_error hkey hv hbad b)

/-- Witness for C5: `LOOM_MAX_BRANCHES=abc` makes `Builder::new` fail. -/
theorem new_malformed_override_fails_witness :
    ∃ e, Builder.new envBadBranches = .error e :=
  new_malformed_override_fails envBadBranches "LOOM_MAX_BRANCHES" "abc"
    (Or.inr (Or.inl rfl)) rfl rfl

/-- C9: the top-level `model(f)` entry point behaves exactly as
`Builder::new().check(f)`: whenever `Builder::new` yields configuration
`b`, `model` returns precisely the result of `b.check`. -/
theorem model_delegates_to_default_check {σ τ : Type} (env : Env) (rt : RT σ τ)
    (fs : FS τ) (elapsed : Nat → Nat) (fuel : Nat) (b : Builder)
    (h : Builder.new env = .ok b) :
    model env rt fs elapsed fuel = .ok (b.check rt fs elapsed fuel) := by
  unfold model
  rw [h]
  rfl

/-- Witness for C9 at the empty environment. -/
theorem model_delegates_to_default_check_witness :
    model envEmpty (rtCount 3) fsNone elapsedZero 10 =
      .ok (defaultBuilder.check (rtCount 3) fsNone elapsedZero 10) :=
  model_delegates_to_default_check envEmpty (rtCount 3) fsNone elapsedZero 10
    defaultBuilder rfl

/-- C10: with `checkpoint_interval = 0`, `check` hits the
remainder-by-zero panic on its very first loop iteration, before the
closure is ever run (empty trace); with any positive interval the
remainder expression never raises this panic. -/
theorem check_zero_interval_div_panic {σ τ : Type} (b : Builder) (rt : RT σ τ)
    (fs : FS τ) (elapsed : Nat → Nat) (fuel : Nat) :
    (b.checkpoint_interval = 0 → b.checkpoint_file = none → fuel ≠ 0 →
      b.check rt fs elapsed fuel = some ([], .divByZero)) ∧
    (b.checkpoint_interval ≠ 0 →
      ∀ evs, b.check rt fs elapsed fuel ≠ some (evs, .divByZero)) := by
  constructor
  · intro hk hcf hf
    rw [check_eq_nocp hcf]
    exact checkLoop_zero_interval hk hf
  · intro hk evs h
    rcases check_inv h with ⟨p, e, _, _, _, hout, _⟩ | ⟨ex0, evs0, hloop, _⟩
    · cases hout
    · exact checkLoop_no_divByZero hk hloop

/-- Witness for C10: interval `0` panics immediately with no closure run. -/
theorem check_zero_interval_div_panic_witness :
    bZeroInterval.check rtInf fsNone elapsedZero 3 = some ([], .divByZero) :=
  (check_zero_interval_div_panic bZeroInterval rtInf fsNone elapsedZero 3).1
    rfl rfl (by decide)

/-- C6: a closure panic is not caught by `check`: when `check` ends with a
panic (no checkpoint file configured, so checkpoint I/O is not involved),
the panicking `Scheduler::run` call is the last observable action — nothing
runs after it — and the panic message is exactly the one `run` raised. -/
theorem check_propagates_closure_panic {σ τ : Type} (b : Builder) (rt : RT σ τ)
    (fs : FS τ) (elapsed : Nat → Nat) (fuel : Nat) (evs : List (Event τ)) (m : String)
    (hcf : b.checkpoint_file = none)
    (h : b.check rt fs elapsed fuel = some (evs, .panic m)) :
    evs.getLast? = some .closureRun ∧ ∃ ex2, rt.run ex2 = .error m := by
  rw [check_eq_nocp hcf] at h
  exact checkLoop_panic_nocp hcf h

/-- Witness for C6: a runtime whose closure always panics makes `check`
stop right after the first run with that panic. -/
theorem check_propagates_closure_panic_witness :
    ([Event.closureRun] : List (Event Nat)).getLast? = some .closureRun ∧
      ∃ ex2, rtPanic.run ex2 = .error "closure panicked" :=
  check_propagates_closure_panic defaultBuilder rtPanic fsNone elapsedZero 5
    [Event.closureRun] "closure panicked" rfl rfl

/-- C3: when `check` completes normally (`step` returned `None` at
iteration `n`), the closure was run exactly `n` times — once per iteration,
each a `Scheduler::run` followed by `Execution::step` — and the final
observable action is printing `Completed in n iterations`. -/
theorem check_completed_reports_iterations {σ τ : Type} (b : Builder) (rt : RT σ τ)
    (fs : FS τ) (elapsed : Nat → Nat) (fuel : Nat) (evs : List (Event τ)) (n : Nat)
    (h : b.check rt fs elapsed fuel = some (evs, .completed n)) :
    countRuns evs = n ∧ evs.getLast? = some (.printCompleted n) := by
  rcases check_inv h with ⟨p, e, _, _, _, hout, _⟩ | ⟨ex0, evs0, hloop, hsh⟩
  · cases hout
  · obtain ⟨hcnt, hlast⟩ := checkLoop_completed hloop
    have hne : evs0 ≠ [] := by intro hnil; rw [hnil] at hlast; cases hlast
    rcases hsh with rfl | ⟨p, t, hp, rfl⟩
    · exact ⟨by omega, hlast⟩
    · refine ⟨by rw [countRuns_load_cons]; omega, ?_⟩
      rw [← List.singleton_append, List.getLast?_append_of_ne_nil _ hne, hlast]

/-- Witness for C3: a search space of three successor trails completes in
four iterations, running the closure four times. -/
theorem check_completed_reports_iterations_witness :
    countRuns evsCount3 = 4 ∧ evsCount3.getLast? = some (.printCompleted 4) :=
  check_completed_reports_iterations defaultBuilder (rtCount 3) fsNone elapsedZero 10
    evsCount3 4 rfl

/-- Counterexample to C1 as stated: with `max_permutations = Some 1` and
`checkpoint_interval = 3`, `check` runs the closure twice — more than
`N = 1` times — before returning at iteration `3`, because the bound is
only consulted when `i % checkpoint_interval == 0`. -/
theorem check_exceeds_max_permutations_counterexample :
    bPerm1.max_permutations = some 1 ∧
    bPerm1.check rtInf fsNone elapsedZero 10 = some (evsPerm1, .maxPermutations 3) ∧
    countRuns evsPerm1 = 2 ∧ ¬ countRuns evsPerm1 ≤ 1 := by
  refine ⟨rfl, rfl, rfl, by decide⟩

/-- C1 amended: the `max_permutations` and `max_duration` bounds are only
consulted at iterations that are multiples of `checkpoint_interval`; when
`check` returns because a bound tripped at iteration `n`, `n` is such a
multiple with the bound reached there, the closure was run `n - 1` times
(possibly far more than `max_permutations`), and the stop is a normal
return (a reported partial completion), not a panic. -/
theorem check_bounds_stop_at_interval_multiples {σ τ : Type} (b : Builder)
    (rt : RT σ τ) (fs : FS τ) (elapsed : Nat → Nat) (fuel : Nat)
    (evs : List (Event τ)) (n : Nat) :
    (b.check rt fs elapsed fuel = some (evs, .maxPermutations n) →
      (∃ N, b.max_permutations = some N ∧ N ≤ n) ∧
        n % b.checkpoint_interval = 0 ∧ countRuns evs + 1 = n) ∧
    (b.check rt fs elapsed fuel = some (evs, .maxDuration n) →
      (∃ D, b.max_duration = some D ∧ D ≤ elapsed n) ∧
        n % b.checkpoint_interval = 0 ∧ countRuns evs + 1 = n) := by
  constructor
  · intro h
    rcases check_inv h with ⟨p, e, _, _, _, hout, _⟩ | ⟨ex0, evs0, hloop, hsh⟩
    · cases hout
    · obtain ⟨hcnt, hmod, hN⟩ := checkLoop_maxPerm hloop
      rcases hsh with rfl | ⟨p, t, hp, rfl⟩
      · exact ⟨hN, hmod, by omega⟩
      · exact ⟨hN, hmod, by rw [countRuns_load_cons]; omega⟩
  · intro h
    rcases check_inv h with ⟨p, e, _, _, _, hout, _⟩ | ⟨ex0, evs0, hloop, hsh⟩
    · cases hout
    · obtain ⟨hcnt, hmod, hD⟩ := checkLoop_maxDur hloop
      rcases hsh with rfl | ⟨p, t, hp, rfl⟩
      · exact ⟨hD, hmod, by omega⟩
      · exact ⟨hD, hmod, by rw [countRuns_load_cons]; omega⟩

/-- Witness for the amended C1 at the counterexample configuration. -/
theorem check_bounds_stop_at_interval_multiples_witness :
    (∃ N, bPerm1.max_permutations = some N ∧ N ≤ 3) ∧
      3 % bPerm1.checkpoint_interval = 0 ∧ countRuns evsPerm1 + 1 = 3 :=
  (check_bounds_stop_at_interval_multiples bPerm1 rtInf fsNone elapsedZero 10
    evsPerm1 3).1 rfl

/-- Counterexample to C8 as stated: with `max_duration = Some 5` the whole
check is not a function of configuration, closure and trail alone — two
runs differing only in wall-clock progression stop at different iterations
with different traces. -/
theorem check_depends_on_wall_clock_counterexample :
    bDur5.check rtInf fsNone elapsedId 10 ≠ bDur5.check rtInf fsNone elapsedDouble 10 := by
  decide

/-- C8 amended: the check is a deterministic function of the configuration,
the runtime (closure and engine), the checkpoint state and the wall-clock
readings; whenever `max_duration` is unset, the wall clock is irrelevant
and the result is fully determined by configuration, runtime and
checkpoint state alone. -/
theorem check_deterministic_without_max_duration {σ τ : Type} (b : Builder)
    (rt : RT σ τ) (fs : FS τ) (e1 e2 : Nat → Nat) (fuel : Nat)
    (hd : b.max_duration = none) :
    b.check rt fs e1 fuel = b.check rt fs e2 fuel := by
  cases hcf : b.checkpoint_file with
  | none =>
    rw [check_eq_nocp hcf, check_eq_nocp hcf, checkLoop_elapsed_irrel hd e1 e2]
  | some p =>
    cases hex : fs.fileExists p with
    | false =>
      rw [check_eq_noexists hcf hex, check_eq_noexists hcf hex,
        checkLoop_elapsed_irrel hd e1 e2]
    | true =>
      cases hld : fs.load p with
      | error e =>
        rw [check_eq_load_error hcf hex hld, check_eq_load_error hcf hex hld]
      | ok t =>
        rw [check_eq_load_ok hcf hex hld, check_eq_load_ok hcf hex hld,
          checkLoop_elapsed_irrel hd e1 e2]

/-- Witness for the amended C8: without `max_duration`, two very different
clocks give identical results. -/
theorem check_deterministic_without_max_duration_witness :
    defaultBuilder.check rtInf fsNone elapsedId 5 =
      defaultBuilder.check rtInf fsNone elapsedDouble 5 :=
  check_deterministic_without_max_duration defaultBuilder rtInf fsNone
    elapsedId elapsedDouble 5 rfl

/-- C7: every failure mode of the checkpoint helpers is fatal:
`load_execution_path` panics when the file cannot be opened/read or its
contents cannot be deserialized, and `store_execution_path` panics when
the trail cannot be serialized or the file cannot be created/written. -/
theorem checkpoint_io_failures_panic {τ : Type} (readFile : String → Option String)
    (parseTrail : String → Option τ) (serializeTrail : τ → Option String)
    (writeFile : String → String → Option Unit) (p : String) (t : τ) :
    (readFile p = none → ∃ e, load_execution_path readFile parseTrail p = .error e) ∧
    (∀ s, readFile p = some s → parseTrail s = none →
      ∃ e, load_execution_path readFile parseTrail p = .error e) ∧
    (serializeTrail t = none →
      ∃ e, store_execution_path serializeTrail writeFile t p = .error e) ∧
    (∀ s, serializeTrail t = some s → writeFile p s = none →
      ∃ e, store_execution_path serializeTrail writeFile t p = .error e) := by
  refine ⟨?_, ?_, ?_, ?_⟩
  · intro hr
    exact ⟨"failed to open or read checkpoint file", by
      unfold load_execution_path; rw [hr]⟩
  · intro s hr hp
    refine ⟨"failed to deserialize checkpoint file", ?_⟩
    have h1 : load_execution_path readFile parseTrail p = parse_loaded parseTrail s := by
      unfold load_execution_path; rw [hr]
    rw [h1]
    unfold parse_loaded
    rw [hp]
  · intro hs
    exact ⟨"failed to serialize execution path", by
      unfold store_execution_path; rw [hs]⟩
  · intro s hs hw
    refine ⟨"failed to create or write checkpoint file", ?_⟩
    have h1 : store_execution_path serializeTrail writeFile t p =
        write_serialized writeFile p s := by
      unfold store_execution_path; rw [hs]
    rw [h1]
    unfold write_serialized
    rw [hw]

/-- Witness for C7: all four checkpoint I/O failure modes, each at a
concrete file system. -/
theorem checkpoint_io_failures_panic_witness :
    (∃ e, load_execution_path readNone parseTrailNone "trail.json" = .error e) ∧
    (∃ e, load_execution_path readGarbage parseTrailNone "trail.json" = .error e) ∧
    (∃ e, store_execution_path serializeNone writeNone 0 "trail.json" = .error e) ∧
    (∃ e, store_execution_path serializeSome writeNone 0 "trail.json" = .error e) :=
  ⟨(checkpoint_io_failures_panic readNone parseTrailNone serializeNone writeNone
      "trail.json" 0).1 rfl,
   (checkpoint_io_failures_panic readGarbage parseTrailNone serializeNone writeNone
      "trail.json" 0).2.1 "garbage" rfl rfl,
   (checkpoint_io_failures_panic readNone parseTrailNone serializeNone writeNone
      "trail.json" 0).2.2.1 rfl,
   (checkpoint_io_failures_panic readNone parseTrailNone serializeSome writeNone
      "trail.json" 0).2.2.2 "s" rfl rfl⟩

/-- C4: with a checkpoint file `p` configured, `check` loads the serialized
trail from `p` as its first action when the file exists (and the load
succeeds), never records a load when the file does not exist, stores only
to `p` and only at iterations that are multiples of `checkpoint_interval`,
and — on a completed search — stores at *every* such iteration; with no
checkpoint file configured, no checkpoint load or store ever happens. -/
theorem check_checkpoint_persistence {σ τ : Type} (b : Builder) (rt : RT σ τ)
    (fs : FS τ) (elapsed : Nat → Nat) (fuel : Nat) (evs : List (Event τ))
    (out : Outcome) (h : b.check rt fs elapsed fuel = some (evs, out)) :
    (b.checkpoint_file = none → ∀ e ∈ evs, isCheckpointIO e = false) ∧
    (∀ p, b.checkpoint_file = some p →
      (fs.fileExists p = true → ∀ t, fs.load p = .ok t →
        evs.head? = some (.load p t)) ∧
      (fs.fileExists p = false → ∀ q t, Event.load q t ∉ evs) ∧
      (∀ j q t, Event.store j q t ∈ evs →
        q = p ∧ j % b.checkpoint_interval = 0) ∧
      (∀ n, out = .completed n → ∀ j, 0 < j → j ≤ n →
        j % b.checkpoint_interval = 0 → ∃ t, Event.store j p t ∈ evs)) := by
  constructor
  · intro hcf e hmem
    rcases check_inv h with ⟨p, e2, hp, _, _, _, _⟩ | ⟨ex0, evs0, hloop, hsh⟩
    · rw [hcf] at hp; cases hp
    · rcases hsh with rfl | ⟨p, t, hp, _⟩
      · cases e with
        | load p t => exact absurd hmem (checkLoop_no_load hloop p t)
        | store j q t =>
          obtain ⟨hq, _, _⟩ := checkLoop_store_mem hloop hmem
          rw [hcf] at hq
          cases hq
        | printIteration i => rfl
        | closureRun => rfl
        | printCompleted i => rfl
      · rw [hcf] at hp; cases hp
  · intro p hcf
    refine ⟨?_, ?_, ?_, ?_⟩
    · intro hex t hld
      rw [check_eq_load_ok hcf hex hld] at h
      obtain ⟨evs2, hrest, hevs⟩ := checkLoopCont_some h
      rw [hevs]
      rfl
    · intro hex q t
      rw [check_eq_noexists hcf hex] at h
      exact checkLoop_no_load h q t
    · intro j q t hmem
      rcases check_inv h with ⟨p2, e2, _, _, _, _, hnil⟩ | ⟨ex0, evs0, hloop, hsh⟩
      · rw [hnil] at hmem; cases hmem
      · rcases hsh with rfl | ⟨p2, t2, hp2, rfl⟩
        · obtain ⟨hq, hmod, _⟩ := checkLoop_store_mem hloop hmem
          rw [hcf] at hq
          exact ⟨(Option.some.inj hq).symm, hmod⟩
        · rcases List.mem_cons.mp hmem with heq | hm
          · cases heq
          · obtain ⟨hq, hmod, _⟩ := checkLoop_store_mem hloop hm
            rw [hcf] at hq
            exact ⟨(Option.some.inj hq).symm, hmod⟩
    · intro n hout j hj0 hjn hmod
      subst hout
      rcases check_inv h with ⟨p2, e2, _, _, _, hpp, _⟩ | ⟨ex0, evs0, hloop, hsh⟩
      · cases hpp
      · have hstores := checkLoop_completed_stores hcf hloop j hj0 hjn hmod
        rcases hsh with rfl | ⟨p2, t2, hp2, rfl⟩
        · exact hstores
        · obtain ⟨t, hmem⟩ := hstores
          exact ⟨t, List.mem_cons_of_mem _ hmem⟩

/-- Witness for C4 on a run with checkpoint file `trail.json`, interval 2
and a five-successor search space: the trail loads first and stores happen
at iterations 2, 4 and 6. -/
theorem check_checkpoint_persistence_witness :
    (bCp.checkpoint_file = none → ∀ e ∈ evsCp, isCheckpointIO e = false) ∧
    (∀ p, bCp.checkpoint_file = some p →
      (fsCp.fileExists p = true → ∀ t, fsCp.load p = .ok t →
        evsCp.head? = some (.load p t)) ∧
      (fsCp.fileExists p = false → ∀ q t, Event.load q t ∉ evsCp) ∧
      (∀ j q t, Event.store j q t ∈ evsCp →
        q = p ∧ j % bCp.checkpoint_interval = 0) ∧
      (∀ n, Outcome.completed 6 = .completed n → ∀ j, 0 < j → j ≤ n →
        j % bCp.checkpoint_interval = 0 → ∃ t, Event.store j p t ∈ evsCp)) :=
  check_checkpoint_persistence bCp (rtCount 5) fsCp elapsedZero 10 evsCp
    (.completed 6) rfl

end Loom
